import Mathlib

/-!
Verification of the FX rate-comparison bot (`fx_bot.py`).

Shallow embedding conventions:
* Python floats are modelled as rationals (`ℚ`); the pipeline only multiplies,
  subtracts, divides and compares values, so `ℚ` is an exact model of the
  arithmetic the claims mention.
* A fetcher that returns `None` on any failure is modelled as a function into
  `Option ℚ`; the network / browser outcome it consumes is an explicit
  argument (`Except Unit _`, where `Except.error ()` stands for any raised
  transport error that the source's `try/except` swallows).
* Python truthiness on a float (`if rate:`) is the test `rate ≠ 0` on a
  present value, and `False` for `None`; on a dict it is nonemptiness.
-/

/-! ### Text cleaning and float parsing

`fx_bot.py` cleans scraped text with
`''.join(c for c in t if c.isdigit() or c in '.,')` and then
`float(t.replace(',', '.'))`.  After cleaning, the string consists of digits,
dots and commas only, so `float` is modelled on its decimal-literal fragment:
it succeeds exactly on strings of digits with at most one dot and at least one
digit, the value being the usual decimal reading. -/

/-- Keep only digits, `.` and `,` (line 105 / line 179 of `fx_bot.py`). -/
def stripKeep (s : String) : String :=
  String.mk (s.data.filter (fun c => c.isDigit || c = '.' || c = ','))

/-- `t.replace(',', '.')` (lines 58, 106, 180 of `fx_bot.py`). -/
def commasToDots (s : String) : String :=
  String.mk (s.data.map (fun c => if c = ',' then '.' else c))

/-- Numeric value of a digit string. -/
def natOfDigits (l : List Char) : ℕ :=
  l.foldl (fun a c => a * 10 + (c.toNat - 48)) 0

/-- Split a character list into the groups separated by `.` (the groups
`"93.44".split('.')` would produce). -/
def splitDots : List Char → List (List Char)
  | [] => [[]]
  | c :: rest =>
    match splitDots rest with
    | [] => [[]]
    | g :: gs => if c = '.' then [] :: g :: gs else (c :: g) :: gs

/-- Python `float` on the decimal-literal fragment reachable in `fx_bot.py`
(strings over digits and dots after comma normalisation): succeeds iff the
string has at most one dot, only digits otherwise, and at least one digit. -/
def pyFloat (s : String) : Option ℚ :=
  match splitDots s.data with
  | [i] =>
      if i ≠ [] ∧ i.all Char.isDigit then some (natOfDigits i) else none
  | [i, f] =>
      if (i ≠ [] ∨ f ≠ []) ∧ i.all Char.isDigit ∧ f.all Char.isDigit then
        some ((natOfDigits i : ℚ) + (natOfDigits f : ℚ) / (10 : ℚ) ^ f.length)
      else none
  | _ => none

/-- The clean-then-parse step applied to one candidate text
(lines 104-106 and 178-180 of `fx_bot.py`). -/
def pyParse (t : String) : Option ℚ :=
  pyFloat (commasToDots (stripKeep t))

/-- The JavaScript filter `/^[0-9.,]+$/.test(text)` used by
`get_profinance_rate` (line 169 of `fx_bot.py`). -/
def isNumericText (s : String) : Bool :=
  s ≠ "" && s.data.all (fun c => c.isDigit || c = '.' || c = ',')

/-! ### Extractors

`get_profinance_rate` iterates a fixed selector list; a fetched page is
modelled as the list, per selector, of the candidate nodes' trimmed texts in
document order.  For one selector the page script returns the first node text
matching `/^[0-9.,]+$/` (or null); a parse failure raises and the
`except ... continue` moves to the next selector. -/

/-- The selector loop of `get_profinance_rate` (lines 158-189 of
`fx_bot.py`): per strategy, take the first fully-numeric candidate, try to
parse it, and on any failure fall through to the next strategy; `none` when
all selectors are exhausted. -/
def profinanceExtract : List (List String) → Option ℚ
  | [] => none
  | nodes :: rest =>
    match nodes.find? isNumericText with
    | some t =>
      match pyParse t with
      | some v => some v
      | none => profinanceExtract rest
    | none => profinanceExtract rest

/-- The single-selector extraction of `get_investing_rate`
(lines 97-111 of `fx_bot.py`): the page script yields the first matching
node's trimmed text or null; a truthy text is cleaned and parsed, a parse
failure is swallowed by the surrounding `except` into `None`. -/
def investingExtract (priceText : Option String) : Option ℚ :=
  match priceText with
  | some t => if t ≠ "" then pyParse t else none
  | none => none

/-- Pairs in `get_investing_rate`'s `urls` dict (lines 69-73). -/
def investingPairs : List String := ["USD/RUB", "CNY/RUB", "USD/CNY"]

/-- Pairs in `get_profinance_rate`'s `urls` dict (lines 126-129). -/
def profinancePairs : List String := ["USD/RUB", "CNY/RUB"]

/-- `get_investing_rate(pair)` (lines 67-122): unsupported pair returns
`None` before any fetch; a raised transport error is caught into `None`;
otherwise the page outcome is extracted. -/
def getInvestingRate (pair : String) (outcome : Except Unit (Option String)) :
    Option ℚ :=
  if pair ∈ investingPairs then
    match outcome with
    | Except.ok pt => investingExtract pt
    | Except.error _ => none
  else none

/-- `get_profinance_rate(pair)` (lines 124-200): unsupported pair returns
`None` before any fetch; a raised transport error is caught into `None`;
otherwise the selector loop runs on the page. -/
def getProfinanceRate (pair : String)
    (outcome : Except Unit (List (List String))) : Option ℚ :=
  if pair ∈ profinancePairs then
    match outcome with
    | Except.ok doc => profinanceExtract doc
    | Except.error _ => none
  else none

/-! ### CBR structured feed

`get_cbr_rates` walks the XML `Valute` entries, parsing
`float(value.replace(',', '.')) / int(nominal)` into a dict keyed by
`CharCode`; any exception makes the whole call return `None`.  An entry is
modelled with its code, its raw decimal text, and its (already int-parsed)
nominal; the dict is an association list observed only through lookup. -/

/-- One `Valute` element of the CBR document: `CharCode`, the raw `Value`
text, and the integer `Nominal`. -/
structure CbrEntry where
  charCode : String
  valueText : String
  nominal : ℕ
deriving DecidableEq

/-- Python dict assignment `m[k] = v`, observed through lookup only. -/
def dictSet (m : List (String × ℚ)) (k : String) (v : ℚ) :
    List (String × ℚ) :=
  (k, v) :: m.filter (fun p => !(p.1 == k))

/-- Python dict lookup `m.get(k)`. -/
def dictGet (m : List (String × ℚ)) (k : String) : Option ℚ :=
  (m.find? (fun p => p.1 == k)).map Prod.snd

/-- The `for valute in tree.findall('Valute')` loop of `get_cbr_rates`
(lines 56-60): builds the dict entry `value / nominal` per code; a value that
does not parse, or a zero nominal, raises and the whole call returns `None`. -/
def cbrAux : List (String × ℚ) → List CbrEntry → Option (List (String × ℚ))
  | m, [] => some m
  | m, e :: rest =>
    match pyFloat (commasToDots e.valueText) with
    | none => none
    | some v =>
      if e.nominal = 0 then none
      else cbrAux (dictSet m e.charCode (v / (e.nominal : ℚ))) rest

/-- `get_cbr_rates()` (lines 49-65) applied to a fetched document. -/
def getCbrRates (doc : List CbrEntry) : Option (List (String × ℚ)) :=
  cbrAux [] doc

/-! ### Report building (`compare`, lines 214-256) -/

/-- `format_rate` (lines 204-205): `f"{rate:.4f}" if rate else "N/A"` —
Python truthiness, so both `None` and `0.0` render as `N/A`. -/
def fmt4 (v : ℚ) : String :=
  let n : ℤ := round (v * 10000)
  let a : ℕ := n.natAbs
  (if n < 0 then "-" else "") ++ toString (a / 10000) ++ "." ++
    (let d := toString (a % 10000)
     String.mk (List.replicate (4 - d.length) '0') ++ d)

/-- `format_rate(rate)` on a possibly-absent value. -/
def formatRate : Option ℚ → String
  | none => "N/A"
  | some v => if v ≠ 0 then fmt4 v else "N/A"

/-- Line 228: `usd_cny_investing * cny_rub_investing if usd_cny_investing and
cny_rub_investing else None` — Python float truthiness on each leg. -/
def crossRate (a b : Option ℚ) : Option ℚ :=
  match a, b with
  | some x, some y => if x ≠ 0 ∧ y ≠ 0 then some (x * y) else none
  | _, _ => none

/-- Which leg of the comparison a recommendation names: the direct pair
`USD/RUB` or the cross legs `USD/CNY + CNY/RUB`. -/
inductive Side where
  | direct
  | cross
deriving DecidableEq

/-- The `Cross vs Direct` block appended by lines 247-256: the signed delta,
the direction emoji (up iff `delta > 0`), and the buy/sell recommendation
present exactly when `abs(delta) > 0.3`, with `Buy = USD/RUB if delta < 0
else USD/CNY + CNY/RUB` and `Sell` the other way round. -/
structure ArbSection where
  delta : ℚ
  up : Bool
  signal : Option (Side × Side)
deriving DecidableEq

/-- The arbitrage analysis of lines 247-256 as a function of the cross value
and the direct Investing reading; `none` when the guard
`if usd_rub_cross and usd_rub_investing` is falsy. -/
def mkArb (cross direct : Option ℚ) : Option ArbSection :=
  match cross, direct with
  | some c, some dv =>
    if c ≠ 0 ∧ dv ≠ 0 then
      let delta := c - dv
      some { delta := delta
             up := decide (delta > 0)
             signal :=
               if |delta| > 3 / 10 then
                 some (if delta < 0 then (Side.direct, Side.cross)
                       else (Side.cross, Side.direct))
               else none }
    else none
  | _, _ => none

/-- Whether the `Arbitrage opportunity detected!` block was emitted. -/
def exceededB (a : ArbSection) : Bool :=
  a.signal.isSome

/-- The recommended buy side, when the threshold block was emitted. -/
def arbBuy (a : ArbSection) : Option Side :=
  a.signal.map Prod.fst

/-- The recommended sell side, when the threshold block was emitted. -/
def arbSell (a : ArbSection) : Option Side :=
  a.signal.map Prod.snd

/-- The seven per-(pair, source) readings `compare` holds after its fetch
phase (lines 216-225). -/
structure Slots where
  usdCbr : Option ℚ
  cnyCbr : Option ℚ
  usdInv : Option ℚ
  cnyInv : Option ℚ
  usdCnyInv : Option ℚ
  usdProf : Option ℚ
  cnyProf : Option ℚ
deriving DecidableEq

/-- The rendered comparison message of lines 231-256: one formatted cell per
reading, the formatted cross rate, and the optional arbitrage section. -/
structure Report where
  usdCbrCell : String
  usdInvCell : String
  usdProfCell : String
  cnyCbrCell : String
  cnyInvCell : String
  cnyProfCell : String
  usdCnyCell : String
  crossCell : String
  arb : Option ArbSection
deriving DecidableEq

/-- Lines 228-256 of `compare`: build the report from the fetched slots.
The cross rate uses the Investing `USD/CNY` and `CNY/RUB` readings, and the
arbitrage section compares it against the Investing `USD/RUB` reading. -/
def buildReport (s : Slots) : Report :=
  { usdCbrCell := formatRate s.usdCbr
    usdInvCell := formatRate s.usdInv
    usdProfCell := formatRate s.usdProf
    cnyCbrCell := formatRate s.cnyCbr
    cnyInvCell := formatRate s.cnyInv
    cnyProfCell := formatRate s.cnyProf
    usdCnyCell := formatRate s.usdCnyInv
    crossCell := formatRate (crossRate s.usdCnyInv s.cnyInv)
    arb := mkArb (crossRate s.usdCnyInv s.cnyInv) s.usdInv }

/-- Lines 216-218: `cbr.get(code) if cbr else None` — dict truthiness, so an
empty dict also yields `None`. -/
def cbrSlot (cbr : Option (List (String × ℚ))) (code : String) : Option ℚ :=
  match cbr with
  | some m => if m.isEmpty then none else dictGet m code
  | none => none

/-- The whole `try` body of `compare` (lines 214-256) as a function of the
six fetch results.  Every operation in the aggregation is `None`-guarded, so
the body has no raising path: the run always produces a report; the
`except` branch of lines 269-272 is reachable only from the messaging I/O,
which is outside the aggregation. -/
def compareRun (cbr : Option (List (String × ℚ)))
    (uI cI ucI uP cP : Option ℚ) : Except String Report :=
  Except.ok (buildReport
    { usdCbr := cbrSlot cbr "USD"
      cnyCbr := cbrSlot cbr "CNY"
      usdInv := uI
      cnyInv := cI
      usdCnyInv := ucI
      usdProf := uP
      cnyProf := cP })

/-- Replace one of the seven readings (used to state slot isolation). -/
def setSlot (s : Slots) (k : Fin 7) (v : Option ℚ) : Slots :=
  match k with
  | ⟨0, _⟩ => { s with usdCbr := v }
  | ⟨1, _⟩ => { s with cnyCbr := v }
  | ⟨2, _⟩ => { s with usdInv := v }
  | ⟨3, _⟩ => { s with cnyInv := v }
  | ⟨4, _⟩ => { s with usdCnyInv := v }
  | ⟨5, _⟩ => { s with usdProf := v }
  | ⟨6, _⟩ => { s with cnyProf := v }

/-- The report cell that displays reading `k`. -/
def reportSlotCell (r : Report) : Fin 7 → String
  | ⟨0, _⟩ => r.usdCbrCell
  | ⟨1, _⟩ => r.cnyCbrCell
  | ⟨2, _⟩ => r.usdInvCell
  | ⟨3, _⟩ => r.cnyInvCell
  | ⟨4, _⟩ => r.usdCnyCell
  | ⟨5, _⟩ => r.usdProfCell
  | ⟨6, _⟩ => r.cnyProfCell

/-- Extraction as the specification's §4.2 words it (for comparison with
`profinanceExtract`): within each strategy every candidate node is cleaned
and parsed, and the first node that parses wins. -/
def extractSpec : List (List String) → Option ℚ
  | [] => none
  | nodes :: rest =>
    match nodes.findSome? pyParse with
    | some v => some v
    | none => extractSpec rest

/-! ### Helper lemmas -/

theorem dictGet_dictSet_self (m : List (String × ℚ)) (k : String) (v : ℚ) :
    dictGet (dictSet m k v) k = some v := by
  simp [dictGet, dictSet, List.find?_cons_of_pos]

theorem findq_filter_ne (m : List (String × ℚ)) (k k' : String) (h : k' ≠ k) :
    (m.filter (fun p => !(p.1 == k))).find? (fun p => p.1 == k') =
      m.find? (fun p => p.1 == k') := by
  induction m with
  | nil => rfl
  | cons a m ih =>
    by_cases hak : a.1 = k
    · rw [show (a :: m).filter (fun p => !(p.1 == k)) = m.filter (fun p => !(p.1 == k)) from
        by simp [List.filter_cons, hak]]
      rw [List.find?_cons_of_neg _ (by simp [hak, h.symm])]
      exact ih
    · rw [show (a :: m).filter (fun p => !(p.1 == k)) = a :: m.filter (fun p => !(p.1 == k)) from
        by simp [List.filter_cons, hak]]
      by_cases hak' : a.1 = k'
      · rw [List.find?_cons_of_pos _ (by simp [hak']), List.find?_cons_of_pos _ (by simp [hak'])]
      · rw [List.find?_cons_of_neg _ (by simp [hak']), List.find?_cons_of_neg _ (by simp [hak'])]
        exact ih

theorem dictGet_dictSet_ne (m : List (String × ℚ)) (k k' : String) (v : ℚ) (h : k' ≠ k) :
    dictGet (dictSet m k v) k' = dictGet m k' := by
  simp only [dictGet, dictSet]
  rw [List.find?_cons_of_neg _ (by simp [h.symm]), findq_filter_ne m k k' h]

theorem cbrAux_get_notMem (doc : List CbrEntry) :
    ∀ (acc m : List (String × ℚ)) (c : String),
      c ∉ doc.map CbrEntry.charCode → cbrAux acc doc = some m →
      dictGet m c = dictGet acc c := by
  induction doc with
  | nil => intro acc m c _ hm; cases hm; rfl
  | cons e rest ih =>
    intro acc m c hc hm
    simp only [List.map_cons, List.mem_cons, not_or] at hc
    cases hv : pyFloat (commasToDots e.valueText) with
    | none =>
      simp only [cbrAux, hv] at hm
      exact Option.noConfusion hm
    | some v =>
      simp only [cbrAux, hv] at hm
      by_cases hn : e.nominal = 0
      · rw [if_pos hn] at hm; exact Option.noConfusion hm
      · rw [if_neg hn] at hm
        rw [ih _ m c hc.2 hm, dictGet_dictSet_ne _ _ _ _ hc.1]

theorem cbrAux_get_mem (doc : List CbrEntry) :
    ∀ (acc m : List (String × ℚ)),
      (doc.map CbrEntry.charCode).Nodup → cbrAux acc doc = some m →
      ∀ e ∈ doc, ∀ v, pyFloat (commasToDots e.valueText) = some v →
      dictGet m e.charCode = some (v / (e.nominal : ℚ)) := by
  induction doc with
  | nil => intro acc m _ _ e he; exact absurd he (List.not_mem_nil e)
  | cons e' rest ih =>
    intro acc m hnd hm e he v hv
    simp only [List.map_cons, List.nodup_cons] at hnd
    cases hv' : pyFloat (commasToDots e'.valueText) with
    | none =>
      simp only [cbrAux, hv'] at hm
      exact Option.noConfusion hm
    | some v' =>
      simp only [cbrAux, hv'] at hm
      by_cases hn : e'.nominal = 0
      · rw [if_pos hn] at hm; exact Option.noConfusion hm
      · rw [if_neg hn] at hm
        rcases List.mem_cons.mp he with rfl | hmem
        · have hvv : v' = v := by
            rw [hv'] at hv
            exact Option.some.inj hv
          have hcn : e.charCode ∉ rest.map CbrEntry.charCode := hnd.1
          rw [cbrAux_get_notMem rest _ m e.charCode hcn hm, hvv, dictGet_dictSet_self]
        · exact ih _ m hnd.2 hm e hmem v hv

/-! ### Claims -/

/-- C1: the claim asserts that when the threshold is exceeded, `delta > 0`
yields `buySide = direct` and `sellSide = cross`.  The code does the
opposite: at the spec's own signal example (cross `169.907`, direct `93.44`,
so `delta = 76.467 > 0`) lines 254-255 of `fx_bot.py` emit
`Buy: USD/CNY + CNY/RUB` (the cross legs) and `Sell: USD/RUB` (the direct
pair) — the recommendation that loses `delta` per USD, contradicting the
adjacent `Potential profit` line.  This theorem evaluates the embedded code
at that failing input. -/
theorem arb_recommends_cross_buy_on_positive_delta :
    mkArb (some (169907 / 1000 : ℚ)) (some (9344 / 100)) =
      some { delta := 76467 / 1000, up := true,
             signal := some (Side.cross, Side.direct) } := by
  have h1 : (169907 / 1000 : ℚ) - 9344 / 100 = 76467 / 1000 := by norm_num
  have h2 : |(76467 / 1000 : ℚ)| > 3 / 10 := by rw [abs_of_pos (by norm_num)]; norm_num
  have h3 : ¬ ((76467 / 1000 : ℚ) < 0) := by norm_num
  simp [mkArb, h1, h2, h3]

/-- C2 (counterexample): with every source failed (all fetch results absent)
the run does not signal any `AggregationFailed`; it succeeds with a report
whose every cell is `N/A` and which carries no arbitrage section. -/
theorem total_outage_yields_ok_report :
    compareRun none none none none none none = Except.ok
      { usdCbrCell := "N/A", usdInvCell := "N/A", usdProfCell := "N/A",
        cnyCbrCell := "N/A", cnyInvCell := "N/A", cnyProfCell := "N/A",
        usdCnyCell := "N/A", crossCell := "N/A", arb := none } := rfl

/-- C2 (amended): the aggregation run never raises — for partial failure and
equally for total failure.  There is no `AggregationFailed` condition: every
combination of fetch results, including zero readings, produces a successful
report. -/
theorem compare_run_always_ok (cbr : Option (List (String × ℚ)))
    (uI cI ucI uP cP : Option ℚ) :
    ∃ r, compareRun cbr uI cI ucI uP cP = Except.ok r :=
  ⟨_, rfl⟩

/-- C3: for positive leg values the derived cross value is the product of
the legs, and an absent leg (a `Failed` reading carries no value) makes the
cross value absent. -/
theorem cross_rate_product (x y : ℚ) (hx : 0 < x) (hy : 0 < y) :
    crossRate (some x) (some y) = some (x * y) ∧
    ∀ b : Option ℚ, crossRate none b = none ∧ crossRate b none = none := by
  refine ⟨by simp [crossRate, hx.ne', hy.ne'], fun b => ⟨rfl, ?_⟩⟩
  cases b <;> simp [crossRate]

/-- C3 (witness): `cross_rate_product` at legs `2` and `3`. -/
theorem cross_rate_product_check :
    crossRate (some 2) (some 3) = some (2 * 3) ∧ crossRate none (some 5) = none :=
  ⟨(cross_rate_product 2 3 (by norm_num) (by norm_num)).1,
   ((cross_rate_product 2 3 (by norm_num) (by norm_num)).2 (some 5)).1⟩

/-- C4 (counterexample): at `delta == 0` (cross and direct both present and
equal) the code does assign a directional sign: line 249 of `fx_bot.py`
renders the `delta > 0 / else` emoji, so the verdict carries the downward
arrow (`up = false`), not an `Indeterminate` direction.  Threshold and
buy/sell behave as claimed. -/
theorem delta_zero_assigns_down_arrow :
    mkArb (some (93 : ℚ)) (some 93) =
      some { delta := 0, up := false, signal := none } := by
  simp [mkArb]; norm_num

/-- C4 (amended): at `delta == 0` with both values present (and nonzero, per
the code's truthiness guard) the threshold is not exceeded and no buy/sell
side is assigned; however the delta line is still emitted and carries the
downward direction emoji, `delta == 0` falling into the `delta ≤ 0`
branch. -/
theorem delta_zero_not_exceeded_no_sides (c : ℚ) (hc : c ≠ 0) :
    mkArb (some c) (some c) =
      some { delta := 0, up := false, signal := none } := by
  simp [mkArb, hc]
  norm_num

/-- C4 (witness): `delta_zero_not_exceeded_no_sides` at `c = 12`. -/
theorem delta_zero_not_exceeded_no_sides_check :
    mkArb (some (12 : ℚ)) (some 12) =
      some { delta := 0, up := false, signal := none } :=
  delta_zero_not_exceeded_no_sides 12 (by norm_num)

/-- C5 (counterexample): the claim says the extractor attempts a parse on
each candidate node and returns the first successfully parsed value from the
first strategy with at least one parseable match.  On a strategy whose nodes
are `"1.2.3"` (fully numeric but unparseable) and `"5.0"` (parseable), the
code hands only the first regex-matching node to the parser and then skips
the whole strategy, returning nothing, while the specified per-node
behaviour (`extractSpec`) returns `5`. -/
theorem extractor_misses_parseable_sibling :
    profinanceExtract [["1.2.3", "5.0"]] = none ∧
    extractSpec [["1.2.3", "5.0"]] = some 5 := by
  constructor
  · rfl
  · have h : extractSpec [["1.2.3", "5.0"]] =
        some (((5 : ℕ) : ℚ) + ((0 : ℕ) : ℚ) / (10 : ℚ) ^ 1) := rfl
    rw [h]; norm_num

/-- C5 (amended): the extractor iterates its strategies in priority order,
but within a strategy it considers only the first candidate node whose raw
text is fully numeric (digits, dots, commas); that single candidate is
cleaned, comma-normalised and parsed; on a parse failure, or when no such
candidate exists, the whole strategy is abandoned for the next one, and the
extractor fails only after all strategies are exhausted.  Formally the
selector loop equals `findSome?` of per-strategy
first-numeric-candidate-then-parse. -/
theorem extractor_single_candidate_fallback (doc : List (List String)) :
    profinanceExtract doc =
      doc.findSome? (fun nodes => (nodes.find? isNumericText).bind pyParse) := by
  induction doc with
  | nil => rfl
  | cons nodes rest ih =>
    rw [List.findSome?_cons]
    cases h : nodes.find? isNumericText with
    | none => simp [profinanceExtract, h, ih]
    | some t =>
      cases hp : pyParse t with
      | none => simp [profinanceExtract, h, hp, ih]
      | some v => simp [profinanceExtract, h, hp]

/-- C6: the analyzer is antisymmetric in delta — for two runs whose deltas
differ only in sign, the threshold verdict coincides (it depends only on
`|delta|`, compared strictly against `0.3`) and the buy/sell assignments are
swapped. -/
theorem analyze_antisymmetric (c d c' d' : ℚ) (hc : c ≠ 0) (hd : d ≠ 0)
    (hc' : c' ≠ 0) (hd' : d' ≠ 0) (h : c' - d' = -(c - d)) :
    (mkArb (some c) (some d)).map exceededB =
      (mkArb (some c') (some d')).map exceededB ∧
    (mkArb (some c) (some d)).bind arbBuy =
      (mkArb (some c') (some d')).bind arbSell ∧
    (mkArb (some c) (some d)).bind arbSell =
      (mkArb (some c') (some d')).bind arbBuy := by
  simp only [mkArb, if_pos (show c ≠ 0 ∧ d ≠ 0 from ⟨hc, hd⟩),
    if_pos (show c' ≠ 0 ∧ d' ≠ 0 from ⟨hc', hd'⟩), h, abs_neg,
    Option.map_some', Option.some_bind]
  rcases lt_trichotomy (c - d) 0 with hlt | heq | hgt
  · have h1 : ¬ (-(c - d) < 0) := by linarith
    have h2 : ¬ (d < c) := by linarith
    by_cases hts : |c - d| > 3 / 10 <;>
      simp [exceededB, arbBuy, arbSell, hts, hlt, h1, h2]
  · rw [heq]
    norm_num [exceededB, arbBuy, arbSell]
  · have h1 : -(c - d) < 0 := by linarith
    have h2 : d < c := by linarith
    by_cases hts : |c - d| > 3 / 10 <;>
      simp [exceededB, arbBuy, arbSell, hts, h1, h2, not_lt_of_lt hgt]

/-- C6 (witness): `analyze_antisymmetric` at the runs `(170, 93)` and
`(93, 170)`, whose deltas are `77` and `-77`. -/
theorem analyze_antisymmetric_check :
    (mkArb (some (170 : ℚ)) (some 93)).map exceededB =
      (mkArb (some (93 : ℚ)) (some 170)).map exceededB ∧
    (mkArb (some (170 : ℚ)) (some 93)).bind arbBuy =
      (mkArb (some (93 : ℚ)) (some 170)).bind arbSell ∧
    (mkArb (some (170 : ℚ)) (some 93)).bind arbSell =
      (mkArb (some (93 : ℚ)) (some 170)).bind arbBuy :=
  analyze_antisymmetric 170 93 93 170 (by norm_num) (by norm_num) (by norm_num)
    (by norm_num) (by norm_num)

/-- C7: per-slot failure isolation.  A failed fetch is already captured as
an absent reading by its own source (`get_investing_rate` returns `None`
when its page raised), the run still completes, the failed slot renders as
`N/A`, and every other slot's cell is exactly what it is with the failing
slot untouched — no sibling slot is affected. -/
theorem slot_failure_isolation (s : Slots) (k j : Fin 7) (hjk : j ≠ k) :
    reportSlotCell (buildReport (setSlot s k none)) k = "N/A" ∧
    reportSlotCell (buildReport (setSlot s k none)) j =
      reportSlotCell (buildReport s) j ∧
    getInvestingRate "USD/RUB" (Except.error ()) = none := by
  refine ⟨?_, ?_, rfl⟩
  · fin_cases k <;> rfl
  · fin_cases k <;> fin_cases j <;> first | exact absurd rfl hjk | rfl

/-- C7 (witness): `slot_failure_isolation` on a fully populated snapshot
with the ProFinance `USD/RUB` slot (index 5) failed and the Investing
`USD/RUB` slot (index 2) observed. -/
theorem slot_failure_isolation_check :
    reportSlotCell (buildReport (setSlot
      ⟨some 93, some 12, some 93, some 12, some 7, some 93, some 12⟩ 5 none)) 5 = "N/A" ∧
    reportSlotCell (buildReport (setSlot
      ⟨some 93, some 12, some 93, some 12, some 7, some 93, some 12⟩ 5 none)) 2 =
      reportSlotCell (buildReport
        ⟨some 93, some 12, some 93, some 12, some 7, some 93, some 12⟩) 2 ∧
    getInvestingRate "USD/RUB" (Except.error ()) = none :=
  slot_failure_isolation ⟨some 93, some 12, some 93, some 12, some 7, some 93, some 12⟩
    5 2 (by decide)

/-- C8 (counterexample): an unsupported pair is not reported as anything
distinguishable from a network failure — requesting `EUR/RUB` from the
Investing source (even with a perfectly parseable page available) returns
exactly the same value, `None`, as requesting a supported pair whose
transport failed.  Only the log message differs. -/
theorem unsupported_indistinguishable_from_transport_failure :
    getInvestingRate "EUR/RUB" (Except.ok (some "95.0")) =
      getInvestingRate "USD/RUB" (Except.error ()) := rfl

/-- C8 (amended): for a pair outside a source's fixed supported set the
source issues no fetch — its result is `None` regardless of what any fetch
would have returned — but that result is the plain absent value, the same
value a network failure produces; the `UnsupportedPair` distinction exists
only in the log line. -/
theorem unsupported_pair_yields_none (pair : String)
    (o o' : Except Unit (Option String))
    (p p' : Except Unit (List (List String)))
    (hi : pair ∉ investingPairs) (hp : pair ∉ profinancePairs) :
    getInvestingRate pair o = none ∧
    getInvestingRate pair o = getInvestingRate pair o' ∧
    getProfinanceRate pair p = none ∧
    getProfinanceRate pair p = getProfinanceRate pair p' := by
  simp [getInvestingRate, getProfinanceRate, hi, hp]

/-- C8 (witness): `unsupported_pair_yields_none` at `EUR/RUB` with one
successful and one failed outcome per source. -/
theorem unsupported_pair_yields_none_check :
    getInvestingRate "EUR/RUB" (Except.ok (some "1.5")) = none ∧
    getInvestingRate "EUR/RUB" (Except.ok (some "1.5")) =
      getInvestingRate "EUR/RUB" (Except.error ()) ∧
    getProfinanceRate "EUR/RUB" (Except.ok [["1.5"]]) = none ∧
    getProfinanceRate "EUR/RUB" (Except.ok [["1.5"]]) =
      getProfinanceRate "EUR/RUB" (Except.error ()) :=
  unsupported_pair_yields_none "EUR/RUB" (Except.ok (some "1.5")) (Except.error ())
    (Except.ok [["1.5"]]) (Except.error ()) (by decide) (by decide)

/-- C9: for a successfully fetched CBR document with distinct currency
codes, every entry's reading equals its comma-normalised decimal value
divided by its integer nominal, and a code missing from the document looks
up to an absent reading rather than crashing. -/
theorem cbr_per_unit_and_missing_code (doc : List CbrEntry)
    (m : List (String × ℚ)) (hm : getCbrRates doc = some m)
    (hnd : (doc.map CbrEntry.charCode).Nodup) :
    (∀ e ∈ doc, ∀ v, pyFloat (commasToDots e.valueText) = some v →
      dictGet m e.charCode = some (v / (e.nominal : ℚ))) ∧
    (∀ c, c ∉ doc.map CbrEntry.charCode → dictGet m c = none) := by
  constructor
  · exact cbrAux_get_mem doc [] m hnd hm
  · intro c hc
    rw [cbrAux_get_notMem doc [] m c hc hm]
    rfl

/-- C9 (witness): `cbr_per_unit_and_missing_code` on a document with
`USD = 93,4409` (nominal 1) and `CZK = 41,5` (nominal 10); the `USD`
reading is `93.4409 / 1` and the absent `EUR` code looks up to `none`. -/
theorem cbr_per_unit_and_missing_code_check :
    dictGet [("CZK", 83 / 20), ("USD", 934409 / 10000)] "USD" =
      some ((934409 / 10000 : ℚ) / ((1 : ℕ) : ℚ)) ∧
    dictGet [("CZK", 83 / 20), ("USD", 934409 / 10000)] "EUR" = none := by
  have hm : getCbrRates [⟨"USD", "93,4409", 1⟩, ⟨"CZK", "41,5", 10⟩] =
      some [("CZK", 83 / 20), ("USD", 934409 / 10000)] := by
    simp +decide [getCbrRates, cbrAux, pyFloat, commasToDots, splitDots, natOfDigits, dictSet]
    norm_num
  have h := cbr_per_unit_and_missing_code [⟨"USD", "93,4409", 1⟩, ⟨"CZK", "41,5", 10⟩]
    [("CZK", 83 / 20), ("USD", 934409 / 10000)] hm (by decide)
  refine ⟨?_, h.2 "EUR" (by decide)⟩
  have hv : pyFloat (commasToDots "93,4409") = some (934409 / 10000 : ℚ) := by
    have hr : pyFloat (commasToDots "93,4409") =
        some (((93 : ℕ) : ℚ) + ((4409 : ℕ) : ℚ) / (10 : ℚ) ^ 4) := rfl
    rw [hr]; norm_num
  exact h.1 ⟨"USD", "93,4409", 1⟩ (by decide) (934409 / 10000) hv

/-- C10: a reading whose numeric value is exactly `0` is treated as absent
throughout: `format_rate` renders it `N/A`, a zero leg nullifies the cross
rate, and a zero cross or direct value suppresses the arbitrage analysis —
every presence check is a Python truthiness test. -/
theorem zero_value_treated_as_absent (b : Option ℚ) (v : ℚ) :
    formatRate (some 0) = "N/A" ∧ crossRate (some 0) b = none ∧
    crossRate b (some 0) = none ∧ mkArb (some 0) (some v) = none ∧
    mkArb (some v) (some 0) = none := by
  refine ⟨by simp [formatRate], ?_, ?_, by simp [mkArb], by simp [mkArb]⟩ <;>
    cases b <;> simp [crossRate]
